import Mathlib

/-!
Shallow embedding of `src/backend/peer.go` (a minimal libp2p chat peer).

The repository code is a single `main` plus a stream handler `handleStream`.
All networking is delegated to the libp2p library; its responses (multiaddr
parsing, peer-info extraction, connecting, stream opening, writing) are
modelled as oracle inputs, and standard input as a list of lines.  Console
output and network actions are recorded as explicit event lists.
-/

namespace Artivus

/-- Protocol identifier string passed to `host.SetStreamHandler` (peer.go:49). -/
def inboundProtocolID : String := "/chat/1.0.0"

/-- Protocol identifier string passed to `host.NewStream` (peer.go:94). -/
def outboundProtocolID : String := "/chat/1.0.0"

/-- Go `unicode.IsSpace`: the Unicode White_Space property, as tested by
`strings.TrimSpace` (peer.go:89). -/
def goIsSpace (c : Char) : Bool :=
  c == ' ' || c == '\t' || c == '\n' || c.toNat == 0x0B || c.toNat == 0x0C || c == '\r' ||
  c.toNat == 0x85 || c.toNat == 0xA0 || c.toNat == 0x1680 ||
  (0x2000 ≤ c.toNat && c.toNat ≤ 0x200A) ||
  c.toNat == 0x2028 || c.toNat == 0x2029 || c.toNat == 0x202F ||
  c.toNat == 0x205F || c.toNat == 0x3000

/-- Go `strings.TrimSpace`: drop leading and trailing white space (peer.go:89). -/
def goTrimSpace (s : String) : String :=
  (((s.data.dropWhile goIsSpace).reverse.dropWhile goIsSpace).reverse).asString

/-- How an inbound stream terminates: clean end of stream (`io.EOF`) or any
other read error.  `handleStream` only tests `err != nil`, so the kind is
never inspected. -/
inductive ReadErr where
  | eof : ReadErr
  | other : String → ReadErr
deriving DecidableEq, Repr

/-- An inbound stream: the bytes it delivers, then the terminating condition
reported by the first read that finds no more data. -/
structure InStream where
  data : List Char
  readErr : ReadErr
deriving DecidableEq, Repr

/-- Console line printed on stream open (peer.go:19). -/
def incomingMsg : List Char := "📩 Incoming stream opened!".data

/-- Console line printed when the read loop ends (peer.go:24). -/
def closedMsg : List Char := "❌ Stream closed".data

/-- Received-message marker prefixed to every printed line (peer.go:27). -/
def recvMarker : List Char := "💬 Received: ".data

/-- The read loop of `handleStream` (peer.go:21-28), fused with
`bufio.Reader.ReadString('\n')`: scan the stream accumulating the current
line in `acc`; a newline completes the line, which is printed with the
received marker; running out of data makes `ReadString` return a non-nil
error (of either kind) together with the partial line `acc`, whereupon the
handler prints the closed notice and returns, discarding `acc`. -/
def handleLoopAux (acc : List Char) : List Char → List (List Char)
  | [] => [closedMsg]
  | c :: cs =>
    if c = '\n' then (recvMarker ++ (acc ++ ['\n'])) :: handleLoopAux [] cs
    else handleLoopAux (acc ++ [c]) cs

/-- `handleStream` (peer.go:18-29): print the open notice, then run the read
loop.  The error kind `s.readErr` is never consulted (`err != nil` only). -/
def handleStream (s : InStream) : List (List Char) :=
  incomingMsg :: handleLoopAux [] s.data

/-- Peer target, modelling `*peer.AddrInfo`: peer identifier plus reachable
addresses. -/
structure PeerInfo where
  id : String
  addrs : List String
deriving DecidableEq, Repr

/-- Outcome of one send attempt, as reported by the library: `host.NewStream`
fails, the stream opens but `s.Write` fails, or both succeed. -/
inductive SendOutcome where
  | openFail : String → SendOutcome
  | writeFail : String → SendOutcome
  | ok : SendOutcome
deriving DecidableEq, Repr

/-- Observable actions of the chat loop: the per-iteration prompt, console
prints, and the network actions open / write / close on an outbound stream. -/
inductive Event where
  | prompt : Event
  | console : String → Event
  | openStream : String → String → Event
  | wrote : String → Event
  | closeStream : Event
deriving DecidableEq, Repr

/-- Network actions, as opposed to console output. -/
def Event.isNet : Event → Bool
  | Event.openStream _ _ => true
  | Event.wrote _ => true
  | Event.closeStream => true
  | _ => false

/-- Open-stream actions among the events. -/
def Event.isOpen : Event → Bool
  | Event.openStream _ _ => true
  | _ => false

/-- Write actions among the events. -/
def Event.isWrite : Event → Bool
  | Event.wrote _ => true
  | _ => false

/-- Console lines carrying the received-message marker. -/
def isRecvLine (o : List Char) : Bool := recvMarker.isPrefixOf o

/-- Console text of peer.go:95. -/
def failedOpenMsg : String := "❌ Failed to open stream: "

/-- Console text of peer.go:100. -/
def failedSendMsg : String := "❌ Failed to send: "

/-- Console text of peer.go:105. -/
def noPeerMsg : String := "⚠️ No peer connected."

/-- One iteration of the chat loop body (peer.go:86-107): prompt, read `msg`,
break when the trimmed line equals the exit sentinel; otherwise, with a peer
target set, open a stream under the outbound protocol id, write the line plus
a newline, close the stream — printing an error and continuing on open or
write failure (the stream is still closed after a write failure, but a failed
open produces `continue` with no stream) — and with no target, print the
warning.  Returns the events plus the break flag. -/
def chatStep (peerInfo : Option PeerInfo) (oc : SendOutcome) (msg : String) :
    List Event × Bool :=
  if goTrimSpace msg = "exit" then
    ([Event.prompt], true)
  else
    match peerInfo with
    | some p =>
      match oc with
      | SendOutcome.openFail e =>
          ([Event.prompt, Event.console (failedOpenMsg ++ e)], false)
      | SendOutcome.writeFail e =>
          ([Event.prompt, Event.openStream p.id outboundProtocolID,
            Event.console (failedSendMsg ++ e), Event.closeStream], false)
      | SendOutcome.ok =>
          ([Event.prompt, Event.openStream p.id outboundProtocolID,
            Event.wrote (msg ++ "\n"), Event.closeStream], false)
    | none => ([Event.prompt, Event.console noPeerMsg], false)

/-- The chat loop (peer.go:86-107) run over a finite observed list of
(input line, library send outcome) pairs.  Returns the accumulated events and
whether the loop was exited via the sentinel within the observed inputs. -/
def chatLoop (peerInfo : Option PeerInfo) :
    List (String × SendOutcome) → List Event × Bool
  | [] => ([], false)
  | (msg, oc) :: rest =>
    let step := chatStep peerInfo oc msg
    if step.2 then (step.1, true)
    else
      let next := chatLoop peerInfo rest
      (step.1 ++ next.1, next.2)

/-- The value of the local variable `peerInfo` at each iteration boundary of
the chat loop.  The loop body (peer.go:86-107) contains no assignment to
`peerInfo`, so each iteration passes it through unchanged. -/
def loopStates (peerInfo : Option PeerInfo) :
    List (String × SendOutcome) → List (Option PeerInfo)
  | [] => [peerInfo]
  | (msg, oc) :: rest =>
    if (chatStep peerInfo oc msg).2 then [peerInfo]
    else peerInfo :: loopStates peerInfo rest

/-- Library responses during target selection: `ma.NewMultiaddr` (peer.go:64),
`peer.AddrInfoFromP2pAddr` (peer.go:69) — which fails when the multiaddr
lacks a `/p2p/` peer identifier component — and `host.Connect` (peer.go:77),
where `none` means success. -/
structure SetupOracle where
  parseResult : Except String String
  infoResult : Except String PeerInfo
  connectResult : Option String
deriving Repr

/-- Result of the target-selection block: either `main` returns early (the
chat loop never runs) or it proceeds into the loop with an optional target. -/
inductive SetupResult where
  | abort : List String → SetupResult
  | proceed : Option PeerInfo → List String → SetupResult
deriving DecidableEq, Repr

/-- Console text of peer.go:66. -/
def invalidMaddrMsg : String := "❌ Invalid multiaddr: "

/-- Console text of peer.go:71. -/
def peerInfoErrMsg : String := "❌ Failed to parse peer info: "

/-- Console text of peer.go:78. -/
def connectFailMsg : String := "❌ Connection failed: "

/-- Console text of peer.go:81. -/
def connectedMsg : String := "✅ Connected to peer: "

/-- Target selection (peer.go:58-83): an empty input line leaves `peerInfo`
nil and falls through to the loop; otherwise parse the multiaddr, extract the
peer info, and connect, returning from `main` with a printed error on any
failure, and retaining the target with a confirmation on success. -/
def selectTarget (targetAddr : String) (oracle : SetupOracle) : SetupResult :=
  if targetAddr = "" then SetupResult.proceed none []
  else
    match oracle.parseResult with
    | Except.error e => SetupResult.abort [invalidMaddrMsg ++ e]
    | Except.ok _ =>
      match oracle.infoResult with
      | Except.error e => SetupResult.abort [peerInfoErrMsg ++ e]
      | Except.ok info =>
        match oracle.connectResult with
        | some e => SetupResult.abort [connectFailMsg ++ e]
        | none => SetupResult.proceed (some info) [connectedMsg ++ info.id]

/-- How `main` ends on a given observation: an early `return` during target
selection; still looping (the observed input list ran out without the
sentinel); blocked forever in `select {}` after the farewell (peer.go:109-111
— an empty `select` blocks indefinitely); or control falling off the end of
`main`, which is unreachable because `select {}` never returns. -/
inductive MainOutcome where
  | aborted : MainOutcome
  | running : MainOutcome
  | blockedForever : MainOutcome
  | returned : MainOutcome
deriving DecidableEq, Repr

/-- Console text of peer.go:109. -/
def farewellMsg : String := "👋 Exiting..."

/-- `main` from target selection onward (peer.go:58-111): select the target,
run the chat loop, and on sentinel exit print the farewell and block forever
in `select {}`. -/
def runMain (targetAddr : String) (oracle : SetupOracle)
    (tr : List (String × SendOutcome)) : List Event × MainOutcome :=
  match selectTarget targetAddr oracle with
  | SetupResult.abort msgs => (msgs.map Event.console, MainOutcome.aborted)
  | SetupResult.proceed pi msgs =>
    let l := chatLoop pi tr
    if l.2 then
      (msgs.map Event.console ++ l.1 ++ [Event.console farewellMsg],
        MainOutcome.blockedForever)
    else
      (msgs.map Event.console ++ l.1, MainOutcome.running)

/-! ### Lemmas about the inbound handler -/

/-- Unfolding: the read loop on an exhausted stream prints the closed notice. -/
theorem handleLoopAux_nil (acc : List Char) : handleLoopAux acc [] = [closedMsg] := rfl

/-- Unfolding: a newline completes and prints the accumulated line. -/
theorem handleLoopAux_cons_newline (acc cs : List Char) :
    handleLoopAux acc ('\n' :: cs) =
      (recvMarker ++ (acc ++ ['\n'])) :: handleLoopAux [] cs := by
  simp [handleLoopAux]

/-- Unfolding: any other character is appended to the accumulated line. -/
theorem handleLoopAux_cons_other (acc : List Char) (c : Char) (cs : List Char)
    (hc : c ≠ '\n') : handleLoopAux acc (c :: cs) = handleLoopAux (acc ++ [c]) cs := by
  simp [handleLoopAux, hc]

/-- A stream with no newline left yields no further print: the next read hits
the terminating condition and the loop ends with the closed notice. -/
theorem handleLoopAux_no_newline (t : List Char) : ∀ acc : List Char,
    (∀ c ∈ t, c ≠ '\n') → handleLoopAux acc t = [closedMsg] := by
  induction t with
  | nil => intro acc _; rfl
  | cons c cs ih =>
    intro acc h
    have hc : c ≠ '\n' := h c (List.mem_cons_self c cs)
    rw [handleLoopAux_cons_other acc c cs hc]
    exact ih _ (fun x hx => h x (List.mem_cons_of_mem _ hx))

/-- Each complete (newline-terminated) line is printed, with the marker, with
its exact content. -/
theorem handleLoopAux_complete_line (d₁ : List Char) : ∀ (acc d₂ : List Char),
    (∀ c ∈ d₁, c ≠ '\n') →
    handleLoopAux acc (d₁ ++ '\n' :: d₂) =
      (recvMarker ++ (acc ++ d₁) ++ ['\n']) :: handleLoopAux [] d₂ := by
  induction d₁ with
  | nil =>
    intro acc d₂ _
    rw [List.nil_append, handleLoopAux_cons_newline]
    simp
  | cons c cs ih =>
    intro acc d₂ h
    have hc : c ≠ '\n' := h c (List.mem_cons_self c cs)
    rw [List.cons_append, handleLoopAux_cons_other _ c _ hc,
      ih (acc ++ [c]) d₂ (fun x hx => h x (List.mem_cons_of_mem _ hx))]
    simp

/-- The read loop always ends with the closed notice. -/
theorem handleLoopAux_ends_closed (t : List Char) : ∀ acc : List Char,
    ∃ l, handleLoopAux acc t = l ++ [closedMsg] := by
  induction t with
  | nil => intro acc; exact ⟨[], rfl⟩
  | cons c cs ih =>
    intro acc
    by_cases hc : c = '\n'
    · subst hc
      obtain ⟨l, hl⟩ := ih []
      exact ⟨(recvMarker ++ (acc ++ ['\n'])) :: l,
        by rw [handleLoopAux_cons_newline, hl]; rfl⟩
    · obtain ⟨l, hl⟩ := ih (acc ++ [c])
      exact ⟨l, by rw [handleLoopAux_cons_other acc c cs hc, hl]⟩

/-- The closed notice does not carry the received marker. -/
theorem isRecvLine_closed : isRecvLine closedMsg = false := by decide

/-- The open notice does not carry the received marker. -/
theorem isRecvLine_incoming : isRecvLine incomingMsg = false := by decide

/-- Every printed line carries the received marker. -/
theorem isRecvLine_marker (l : List Char) : isRecvLine (recvMarker ++ l) = true := by
  simp [isRecvLine]

/-- One received-marker print per newline in the stream data: every
successfully read line is printed, and nothing else is. -/
theorem handleLoopAux_count (t : List Char) : ∀ acc : List Char,
    (handleLoopAux acc t).countP isRecvLine = t.count '\n' := by
  induction t with
  | nil => intro acc; simp [handleLoopAux_nil, isRecvLine_closed]
  | cons c cs ih =>
    intro acc
    by_cases hc : c = '\n'
    · subst hc
      rw [handleLoopAux_cons_newline]
      simp [List.count_cons, ih, isRecvLine_marker]
    · rw [handleLoopAux_cons_other acc c cs hc]
      simp [ih, List.count_cons, hc]

/-- Every element the read loop prints is the closed notice or a marked,
newline-terminated line. -/
theorem handleLoopAux_shape (t : List Char) : ∀ acc : List Char,
    ∀ o ∈ handleLoopAux acc t, o = closedMsg ∨
      ∃ l, o = recvMarker ++ l ∧ l.getLast? = some '\n' := by
  induction t with
  | nil =>
    intro acc o ho
    simp [handleLoopAux] at ho
    exact Or.inl ho
  | cons c cs ih =>
    intro acc o ho
    by_cases hc : c = '\n'
    · subst hc
      rw [handleLoopAux_cons_newline, List.mem_cons] at ho
      rcases ho with rfl | ho
      · exact Or.inr ⟨acc ++ ['\n'], rfl, by simp⟩
      · exact ih [] o ho
    · rw [handleLoopAux_cons_other acc c cs hc] at ho
      exact ih _ o ho

/-- Trailing data with no newline is invisible: the loop behaves as if the
stream had ended right after the last newline. -/
theorem handleLoopAux_append_no_newline (p : List Char) : ∀ (acc t : List Char),
    (∀ c ∈ t, c ≠ '\n') → handleLoopAux acc (p ++ t) = handleLoopAux acc p := by
  induction p with
  | nil =>
    intro acc t ht
    rw [List.nil_append, handleLoopAux_no_newline t acc ht]
    rfl
  | cons c cs ih =>
    intro acc t ht
    by_cases hc : c = '\n'
    · subst hc
      rw [List.cons_append, handleLoopAux_cons_newline, handleLoopAux_cons_newline,
        ih [] t ht]
    · rw [List.cons_append, handleLoopAux_cons_other _ c _ hc,
        handleLoopAux_cons_other _ c _ hc]
      exact ih (acc ++ [c]) t ht

/-! ### Lemmas about the chat loop -/

/-- The break flag of one iteration is exactly the sentinel test. -/
theorem chatStep_break (p : Option PeerInfo) (oc : SendOutcome) (msg : String) :
    (chatStep p oc msg).2 = decide (goTrimSpace msg = "exit") := by
  by_cases h : goTrimSpace msg = "exit"
  · simp [chatStep, h]
  · cases p <;> cases oc <;> simp [chatStep, h]

/-- A sentinel line makes the iteration break with only the prompt emitted. -/
theorem chatStep_sentinel (p : Option PeerInfo) (oc : SendOutcome) (msg : String)
    (h : goTrimSpace msg = "exit") : chatStep p oc msg = ([Event.prompt], true) := by
  simp [chatStep, h]

/-- A non-sentinel iteration does not break, and the loop equation on such an
iteration appends its events and recurses. -/
theorem chatLoop_cons_continue (p : Option PeerInfo) (msg : String) (oc : SendOutcome)
    (tr : List (String × SendOutcome)) (h : goTrimSpace msg ≠ "exit") :
    chatLoop p ((msg, oc) :: tr) =
      ((chatStep p oc msg).1 ++ (chatLoop p tr).1, (chatLoop p tr).2) := by
  have hb : (chatStep p oc msg).2 = false := by
    rw [chatStep_break]; exact decide_eq_false h
  simp [chatLoop, hb]

/-- The loop exits via the sentinel exactly when some observed input line
trims to `exit`. -/
theorem chatLoop_exits_iff (p : Option PeerInfo) (tr : List (String × SendOutcome)) :
    (chatLoop p tr).2 = true ↔ ∃ x ∈ tr, goTrimSpace x.1 = "exit" := by
  induction tr with
  | nil => simp [chatLoop]
  | cons x tr ih =>
    obtain ⟨msg, oc⟩ := x
    by_cases h : goTrimSpace msg = "exit"
    · have hs := chatStep_sentinel p oc msg h
      simp [chatLoop, hs]
      exact Or.inl h
    · rw [chatLoop_cons_continue p msg oc tr h]
      simp only [ih, List.mem_cons]
      constructor
      · rintro ⟨y, hy, hye⟩
        exact ⟨y, Or.inr hy, hye⟩
      · rintro ⟨y, hy | hy, hye⟩
        · subst hy; exact absurd hye h
        · exact ⟨y, hy, hye⟩

/-- Any open-stream action in a per-iteration event list names the set target
and the outbound protocol id. -/
theorem chatStep_open_pid (p : Option PeerInfo) (oc : SendOutcome)
    (msg pid proto : String)
    (h : Event.openStream pid proto ∈ (chatStep p oc msg).1) :
    ∃ q, p = some q ∧ pid = q.id ∧ proto = outboundProtocolID := by
  by_cases hx : goTrimSpace msg = "exit"
  · simp [chatStep, hx] at h
  · cases p with
    | none => simp [chatStep, hx] at h
    | some q =>
      cases oc with
      | openFail e => simp [chatStep, hx] at h
      | writeFail e =>
        simp [chatStep, hx] at h
        exact ⟨q, rfl, h.1, h.2⟩
      | ok =>
        simp [chatStep, hx] at h
        exact ⟨q, rfl, h.1, h.2⟩

/-- Any open-stream action in a whole loop trace names the set target and the
outbound protocol id. -/
theorem chatLoop_open_pid (p : Option PeerInfo) (tr : List (String × SendOutcome))
    (pid proto : String) (h : Event.openStream pid proto ∈ (chatLoop p tr).1) :
    ∃ q, p = some q ∧ pid = q.id ∧ proto = outboundProtocolID := by
  induction tr with
  | nil => simp [chatLoop] at h
  | cons x tr ih =>
    obtain ⟨msg, oc⟩ := x
    by_cases hx : goTrimSpace msg = "exit"
    · have hs := chatStep_sentinel p oc msg hx
      simp [chatLoop, hs] at h
    · rw [chatLoop_cons_continue p msg oc tr hx] at h
      simp only [List.mem_append] at h
      rcases h with h | h
      · exact chatStep_open_pid p oc msg pid proto h
      · exact ih h

/-- The local `peerInfo` is the same at every iteration boundary. -/
theorem loopStates_const (p : Option PeerInfo) (tr : List (String × SendOutcome)) :
    ∀ s ∈ loopStates p tr, s = p := by
  induction tr with
  | nil => intro s hs; simp [loopStates] at hs; exact hs
  | cons x tr ih =>
    obtain ⟨msg, oc⟩ := x
    intro s hs
    by_cases hb : (chatStep p oc msg).2 = true
    · simp [loopStates, hb] at hs; exact hs
    · simp [loopStates, hb] at hs
      rcases hs with rfl | hs
      · rfl
      · exact ih s hs

/-- With no target set, one iteration performs no network action. -/
theorem chatStep_none_no_net (oc : SendOutcome) (msg : String) :
    (chatStep none oc msg).1.filter Event.isNet = [] := by
  by_cases h : goTrimSpace msg = "exit" <;>
    simp [chatStep, h, Event.isNet, List.filter]

/-- With no target set, the whole loop performs no network action. -/
theorem chatLoop_none_no_net (tr : List (String × SendOutcome)) :
    (chatLoop none tr).1.filter Event.isNet = [] := by
  induction tr with
  | nil => simp [chatLoop]
  | cons x tr ih =>
    obtain ⟨msg, oc⟩ := x
    by_cases h : goTrimSpace msg = "exit"
    · have hs := chatStep_sentinel none oc msg h
      simp [chatLoop, hs, Event.isNet, List.filter]
    · rw [chatLoop_cons_continue none msg oc tr h]
      simp only [List.filter_append, chatStep_none_no_net, ih]
      rfl

/-! ### Claim theorems -/

/-- Claim C1: with a peer target set and a non-sentinel input line, a
successful send opens exactly one outbound stream to that peer under the
fixed protocol identifier `/chat/1.0.0` — the same identifier under which the
inbound handler is registered — writes the input line followed by a single
trailing newline, and then closes the stream. -/
theorem c1_outbound_stream_per_message (p : PeerInfo) (msg : String)
    (h : goTrimSpace msg ≠ "exit") :
    chatStep (some p) SendOutcome.ok msg =
      ([Event.prompt, Event.openStream p.id outboundProtocolID,
        Event.wrote (msg ++ "\n"), Event.closeStream], false) ∧
    (chatStep (some p) SendOutcome.ok msg).1.countP Event.isOpen = 1 ∧
    outboundProtocolID = inboundProtocolID ∧
    inboundProtocolID = "/chat/1.0.0" := by
  refine ⟨by simp [chatStep, h], ?_, rfl, rfl⟩
  simp [chatStep, h, Event.isOpen]

/-- Claim C1 witness. -/
theorem c1_witness :
    chatStep (some (PeerInfo.mk "QmTarget" [])) SendOutcome.ok "hello" =
      ([Event.prompt, Event.openStream "QmTarget" outboundProtocolID,
        Event.wrote ("hello" ++ "\n"), Event.closeStream], false) :=
  (c1_outbound_stream_per_message (PeerInfo.mk "QmTarget" []) "hello" (by decide)).1

/-- Claim C2: the inbound handler prints every successfully read
newline-terminated line with the received-message marker; end-of-stream and
any other read error are treated identically with no distinction surfaced; on
the first read error it prints the closed-stream notice and returns, and an
empty stream yields the notice immediately rather than looping forever. -/
theorem c2_inbound_handler (data d₁ d₂ : List Char) (e e' : ReadErr)
    (h₁ : ∀ c ∈ d₁, c ≠ '\n') :
    handleStream ⟨data, e⟩ = handleStream ⟨data, e'⟩ ∧
    handleStream ⟨[], e⟩ = [incomingMsg, closedMsg] ∧
    (handleStream ⟨data, e⟩).countP isRecvLine = data.count '\n' ∧
    (∀ o ∈ handleStream ⟨data, e⟩, o = incomingMsg ∨ o = closedMsg ∨
       ∃ l, o = recvMarker ++ l ∧ l.getLast? = some '\n') ∧
    (handleStream ⟨data, e⟩).getLast? = some closedMsg ∧
    handleStream ⟨d₁ ++ '\n' :: d₂, e⟩ =
      incomingMsg :: (recvMarker ++ d₁ ++ ['\n']) :: handleLoopAux [] d₂ := by
  refine ⟨rfl, rfl, ?_, ?_, ?_, ?_⟩
  · show (incomingMsg :: handleLoopAux [] data).countP isRecvLine = _
    rw [List.countP_cons]
    simp [isRecvLine_incoming, handleLoopAux_count]
  · intro o ho
    simp only [handleStream, List.mem_cons] at ho
    rcases ho with rfl | ho
    · exact Or.inl rfl
    · rcases handleLoopAux_shape data [] o ho with hx | hx
      · exact Or.inr (Or.inl hx)
      · exact Or.inr (Or.inr hx)
  · obtain ⟨l, hl⟩ := handleLoopAux_ends_closed data []
    show (incomingMsg :: handleLoopAux [] data).getLast? = _
    rw [hl,
      show incomingMsg :: (l ++ [closedMsg]) = (incomingMsg :: l) ++ [closedMsg] from rfl,
      List.getLast?_concat]
  · show incomingMsg :: handleLoopAux [] (d₁ ++ '\n' :: d₂) = _
    rw [handleLoopAux_complete_line d₁ [] d₂ h₁]
    simp

/-- Claim C2 witness. -/
theorem c2_witness :
    handleStream ⟨"ab".data ++ '\n' :: "c".data, ReadErr.eof⟩ =
      incomingMsg :: (recvMarker ++ "ab".data ++ ['\n']) :: handleLoopAux [] "c".data :=
  (c2_inbound_handler "hi".data "ab".data "c".data ReadErr.eof
    (ReadErr.other "connection reset") (by decide)).2.2.2.2.2

/-- Claim C3: the chat loop terminates exactly when an input line trims
(case-sensitively) to `exit`; every other line, including the empty line,
does not break the loop and is treated as a message — sent when a target is
set, a no-peer warning otherwise. -/
theorem c3_exit_sentinel (p : Option PeerInfo) (tr : List (String × SendOutcome)) :
    ((chatLoop p tr).2 = true ↔ ∃ x ∈ tr, goTrimSpace x.1 = "exit") ∧
    (∀ oc msg, goTrimSpace msg = "exit" → chatStep p oc msg = ([Event.prompt], true)) ∧
    (∀ oc msg, goTrimSpace msg ≠ "exit" → (chatStep p oc msg).2 = false) ∧
    (∀ oc : SendOutcome, chatStep none oc "" =
       ([Event.prompt, Event.console noPeerMsg], false)) ∧
    (∀ q : PeerInfo, chatStep (some q) SendOutcome.ok "" =
       ([Event.prompt, Event.openStream q.id outboundProtocolID,
         Event.wrote ("" ++ "\n"), Event.closeStream], false)) := by
  refine ⟨chatLoop_exits_iff p tr, chatStep_sentinel p, ?_, ?_, ?_⟩
  · intro oc msg h
    rw [chatStep_break]
    exact decide_eq_false h
  · intro oc
    have hne : goTrimSpace "" ≠ "exit" := by decide
    cases oc <;> simp [chatStep, hne]
  · intro q
    have hne : goTrimSpace "" ≠ "exit" := by decide
    simp [chatStep, hne]

/-- Claim C3 witness. -/
theorem c3_witness : (chatLoop none [("exit", SendOutcome.ok)]).2 = true :=
  (c3_exit_sentinel none [("exit", SendOutcome.ok)]).1.mpr
    ⟨("exit", SendOutcome.ok), by decide, by decide⟩

/-- Claim C4: with no peer target set, every non-sentinel input line produces
only the no-peer warning, with no stream opened and nothing written, and the
send path is a total function of the absent target (no dereference, no
crash). -/
theorem c4_no_peer_no_deref (oc : SendOutcome) (msg : String)
    (h : goTrimSpace msg ≠ "exit") :
    chatStep none oc msg = ([Event.prompt, Event.console noPeerMsg], false) ∧
    (chatStep none oc msg).1.filter Event.isNet = [] ∧
    (∀ tr, (chatLoop none tr).1.filter Event.isNet = []) := by
  refine ⟨?_, chatStep_none_no_net oc msg, chatLoop_none_no_net⟩
  cases oc <;> simp [chatStep, h]

/-- Claim C4 witness. -/
theorem c4_witness :
    chatStep none SendOutcome.ok "hello" =
      ([Event.prompt, Event.console noPeerMsg], false) :=
  (c4_no_peer_no_deref SendOutcome.ok "hello" (by decide)).1

/-- Claim C5: an empty target line selects no target and proceeds into the
loop; a parse failure, a missing peer identifier, or a failed connect each
print an error and abort the session (the chat loop never runs — no prompt is
ever emitted); only a successful parse and connect retains the target and
prints the confirmation. -/
theorem c5_target_selection (oracle : SetupOracle) :
    (selectTarget "" oracle = SetupResult.proceed none []) ∧
    (∀ ta e, ta ≠ "" → oracle.parseResult = Except.error e →
       selectTarget ta oracle = SetupResult.abort [invalidMaddrMsg ++ e]) ∧
    (∀ ta m e, ta ≠ "" → oracle.parseResult = Except.ok m →
       oracle.infoResult = Except.error e →
       selectTarget ta oracle = SetupResult.abort [peerInfoErrMsg ++ e]) ∧
    (∀ ta m info e, ta ≠ "" → oracle.parseResult = Except.ok m →
       oracle.infoResult = Except.ok info → oracle.connectResult = some e →
       selectTarget ta oracle = SetupResult.abort [connectFailMsg ++ e]) ∧
    (∀ ta m info, ta ≠ "" → oracle.parseResult = Except.ok m →
       oracle.infoResult = Except.ok info → oracle.connectResult = none →
       selectTarget ta oracle =
         SetupResult.proceed (some info) [connectedMsg ++ info.id]) ∧
    (∀ ta msgs tr, selectTarget ta oracle = SetupResult.abort msgs →
       runMain ta oracle tr = (msgs.map Event.console, MainOutcome.aborted) ∧
       Event.prompt ∉ (runMain ta oracle tr).1) := by
  refine ⟨rfl, ?_, ?_, ?_, ?_, ?_⟩
  · intro ta e hta hp
    simp [selectTarget, hta, hp]
  · intro ta m e hta hp hi
    simp [selectTarget, hta, hp, hi]
  · intro ta m info e hta hp hi hc
    simp [selectTarget, hta, hp, hi, hc]
  · intro ta m info hta hp hi hc
    simp [selectTarget, hta, hp, hi, hc]
  · intro ta msgs tr habort
    refine ⟨by simp [runMain, habort], ?_⟩
    simp [runMain, habort]

/-- Claim C5 witness. -/
theorem c5_witness :
    selectTarget "/ip4/127.0.0.1/tcp/4001"
        (SetupOracle.mk (Except.error "must begin with /") (Except.error "x") none) =
      SetupResult.abort [invalidMaddrMsg ++ "must begin with /"] :=
  (c5_target_selection
      (SetupOracle.mk (Except.error "must begin with /") (Except.error "x") none)).2.1
    "/ip4/127.0.0.1/tcp/4001" "must begin with /" (by decide) rfl

/-- Claim C6: a failed stream open or a failed write is non-fatal: the
iteration prints an error, does not break, and the loop goes on to process
the remaining input. -/
theorem c6_failed_send_nonfatal (p : PeerInfo) (msg e : String)
    (tr : List (String × SendOutcome)) (h : goTrimSpace msg ≠ "exit") :
    chatStep (some p) (SendOutcome.openFail e) msg =
      ([Event.prompt, Event.console (failedOpenMsg ++ e)], false) ∧
    chatStep (some p) (SendOutcome.writeFail e) msg =
      ([Event.prompt, Event.openStream p.id outboundProtocolID,
        Event.console (failedSendMsg ++ e), Event.closeStream], false) ∧
    chatLoop (some p) ((msg, SendOutcome.openFail e) :: tr) =
      ([Event.prompt, Event.console (failedOpenMsg ++ e)] ++ (chatLoop (some p) tr).1,
       (chatLoop (some p) tr).2) ∧
    chatLoop (some p) ((msg, SendOutcome.writeFail e) :: tr) =
      ([Event.prompt, Event.openStream p.id outboundProtocolID,
        Event.console (failedSendMsg ++ e), Event.closeStream] ++
          (chatLoop (some p) tr).1,
       (chatLoop (some p) tr).2) := by
  have h1 : chatStep (some p) (SendOutcome.openFail e) msg =
      ([Event.prompt, Event.console (failedOpenMsg ++ e)], false) := by
    simp [chatStep, h]
  have h2 : chatStep (some p) (SendOutcome.writeFail e) msg =
      ([Event.prompt, Event.openStream p.id outboundProtocolID,
        Event.console (failedSendMsg ++ e), Event.closeStream], false) := by
    simp [chatStep, h]
  refine ⟨h1, h2, ?_, ?_⟩
  · rw [chatLoop_cons_continue _ _ _ _ h, h1]
  · rw [chatLoop_cons_continue _ _ _ _ h, h2]

/-- Claim C6 witness. -/
theorem c6_witness :
    chatLoop (some (PeerInfo.mk "QmT" []))
        (("hello", SendOutcome.openFail "err") :: [("b", SendOutcome.ok)]) =
      ([Event.prompt, Event.console (failedOpenMsg ++ "err")] ++
        (chatLoop (some (PeerInfo.mk "QmT" [])) [("b", SendOutcome.ok)]).1,
       (chatLoop (some (PeerInfo.mk "QmT" [])) [("b", SendOutcome.ok)]).2) :=
  (c6_failed_send_nonfatal (PeerInfo.mk "QmT" []) "hello" "err"
    [("b", SendOutcome.ok)] (by decide)).2.2.1

/-- Claim C7: the peer target is fixed for the whole session — it equals the
initial value at every iteration boundary, and every stream ever opened by
the loop names that initial target (so the loop never moves between the idle
and connected states). -/
theorem c7_target_immutable (p : Option PeerInfo) (tr : List (String × SendOutcome)) :
    (∀ s ∈ loopStates p tr, s = p) ∧
    (∀ pid proto, Event.openStream pid proto ∈ (chatLoop p tr).1 →
       ∃ q, p = some q ∧ pid = q.id ∧ proto = outboundProtocolID) :=
  ⟨loopStates_const p tr, fun pid proto hm => chatLoop_open_pid p tr pid proto hm⟩

/-- Claim C7 witness. -/
theorem c7_witness :
    ∃ q, (some (PeerInfo.mk "QmT" []) : Option PeerInfo) = some q ∧
      "QmT" = q.id ∧ "/chat/1.0.0" = outboundProtocolID :=
  (c7_target_immutable (some (PeerInfo.mk "QmT" [])) [("a", SendOutcome.ok)]).2
    "QmT" "/chat/1.0.0" (by decide)

/-- Claim C8: after the exit sentinel the process prints the farewell and
blocks forever in `select {}`; control never returns from `main` on any
path. -/
theorem c8_blocks_after_exit (ta : String) (oracle : SetupOracle)
    (tr : List (String × SendOutcome)) :
    ((runMain ta oracle tr).2 ≠ MainOutcome.returned) ∧
    (∀ pi msgs, selectTarget ta oracle = SetupResult.proceed pi msgs →
       (chatLoop pi tr).2 = true →
       (runMain ta oracle tr).2 = MainOutcome.blockedForever ∧
       (runMain ta oracle tr).1.getLast? = some (Event.console farewellMsg)) := by
  constructor
  · cases hsel : selectTarget ta oracle with
    | abort msgs => simp [runMain, hsel]
    | proceed pi msgs =>
      by_cases hl : (chatLoop pi tr).2 = true
      · simp [runMain, hsel, hl]
      · simp [runMain, hsel, hl]
  · intro pi msgs hsel hl
    have hrm : runMain ta oracle tr =
        (msgs.map Event.console ++ (chatLoop pi tr).1 ++ [Event.console farewellMsg],
          MainOutcome.blockedForever) := by
      simp [runMain, hsel, hl]
    rw [hrm]
    exact ⟨rfl, List.getLast?_concat _⟩

/-- Claim C8 witness. -/
theorem c8_witness :
    (runMain "" (SetupOracle.mk (Except.error "x") (Except.error "y") none)
        [("exit", SendOutcome.ok)]).2 = MainOutcome.blockedForever ∧
    (runMain "" (SetupOracle.mk (Except.error "x") (Except.error "y") none)
        [("exit", SendOutcome.ok)]).1.getLast? = some (Event.console farewellMsg) :=
  (c8_blocks_after_exit "" (SetupOracle.mk (Except.error "x") (Except.error "y") none)
      [("exit", SendOutcome.ok)]).2 none [] rfl (by decide)

/-- Claim C9: bytes pending at stream end without a terminating newline are
silently discarded — the handler output on such a stream equals the output
with the partial tail absent, and every printed line is newline-terminated. -/
theorem c9_partial_line_discarded (p t : List Char) (e e' : ReadErr)
    (ht : ∀ c ∈ t, c ≠ '\n') :
    handleStream ⟨p ++ t, e⟩ = handleStream ⟨p, e'⟩ ∧
    (∀ o ∈ handleStream ⟨p ++ t, e⟩, o = incomingMsg ∨ o = closedMsg ∨
       ∃ l, o = recvMarker ++ l ∧ l.getLast? = some '\n') := by
  constructor
  · show incomingMsg :: handleLoopAux [] (p ++ t) = incomingMsg :: handleLoopAux [] p
    rw [handleLoopAux_append_no_newline p [] t ht]
  · intro o ho
    simp only [handleStream, List.mem_cons] at ho
    rcases ho with rfl | ho
    · exact Or.inl rfl
    · rcases handleLoopAux_shape (p ++ t) [] o ho with hx | hx
      · exact Or.inr (Or.inl hx)
      · exact Or.inr (Or.inr hx)

/-- Claim C9 witness. -/
theorem c9_witness :
    handleStream ⟨"msg\n".data ++ "partial".data, ReadErr.eof⟩ =
      handleStream ⟨"msg\n".data, ReadErr.other "reset"⟩ :=
  (c9_partial_line_discarded "msg\n".data "partial".data ReadErr.eof
    (ReadErr.other "reset") (by decide)).1

/-- Claim C10: trimming applies only to the sentinel comparison: a
non-sentinel line is sent verbatim (untrimmed) plus one newline, while a line
that trims to `exit` — for example `"  exit  "` — breaks the loop with no
bytes sent. -/
theorem c10_trim_sentinel_only (p : PeerInfo) (oc : SendOutcome) (msg : String)
    (h : goTrimSpace msg ≠ "exit") :
    (chatStep (some p) SendOutcome.ok msg).1.filter Event.isWrite =
      [Event.wrote (msg ++ "\n")] ∧
    (∀ m, goTrimSpace m = "exit" →
       chatStep (some p) oc m = ([Event.prompt], true) ∧
       (chatStep (some p) oc m).1.filter Event.isNet = []) ∧
    goTrimSpace "  exit  " = "exit" ∧
    chatStep (some p) oc "  exit  " = ([Event.prompt], true) := by
  refine ⟨?_, ?_, by decide, ?_⟩
  · simp [chatStep, h, Event.isWrite, List.filter]
  · intro m hm
    rw [chatStep_sentinel (some p) oc m hm]
    exact ⟨rfl, rfl⟩
  · exact chatStep_sentinel (some p) oc "  exit  " (by decide)

/-- Claim C10 witness. -/
theorem c10_witness :
    (chatStep (some (PeerInfo.mk "QmT" [])) SendOutcome.ok "  hi  ").1.filter
        Event.isWrite = [Event.wrote ("  hi  " ++ "\n")] ∧
    chatStep (some (PeerInfo.mk "QmT" [])) SendOutcome.ok "  exit  " =
      ([Event.prompt], true) :=
  ⟨(c10_trim_sentinel_only (PeerInfo.mk "QmT" []) SendOutcome.ok "  hi  "
      (by decide)).1,
   (c10_trim_sentinel_only (PeerInfo.mk "QmT" []) SendOutcome.ok "  hi  "
      (by decide)).2.2.2⟩

end Artivus
